import Mathlib

/-!
Shallow embedding of `src/lib/libixp_rubythread/thread_ruby.c`, the ruby
thread backend of libixp.  The backend installs an `IxpThread` vtable whose
RWLock operations dispatch to an `RWLock` class defined by the bootstrap
string at the bottom of the file (evaluated by `ixp_rubyinit`), whose
rendezvous operations dispatch to ruby's `ConditionVariable`, and whose IO
operations wrap `read(2)`/`write(2)` with scheduler yields.

Modelling conventions:
  * a scheduling unit (green thread, `Thread.current`) is a natural number;
  * each method of the embedded `RWLock` class runs its check-and-mutate
    logic inside `Thread.critical = true`, a cooperative no-yield region,
    so every loop iteration of `rdlock`/`wrlock`, every `try*` call and
    every `unlock` call is one atomic step on the lock state;
  * ruby instance variables that are read but never assigned anywhere in
    the class (`@rwheld`, `@rwqueue`) are always `nil`;
  * calling a method that does not exist (`Array#remove!`, `Array#empty`,
    `NilClass#empty?`) raises `NoMethodError`; a bare `raise` raises a
    `RuntimeError`.  An exception aborts the method, keeping whatever
    mutations happened before the raise.
-/

namespace ThreadRuby

/-- Identifier of a scheduling unit (a ruby green thread); the result of
`Thread.current` in a call is the calling unit's identifier. -/
abbrev Tid := Nat

/-- State of one embedded `RWLock` object: the four instance variables
assigned by `RWLock#initialize` (thread_ruby.c lines 214-219).
`rdqueue`/`wrqueue` hold units blocked in `rdlock`/`wrlock`; `wrheld` is the
write holder (or `nil`); `rdheld` is the list of read holders. -/
structure RWLockSt where
  rdqueue : List Tid
  wrqueue : List Tid
  wrheld  : Option Tid
  rdheld  : List Tid
deriving DecidableEq, Repr

/-- Lock state produced by `RWLock.new` (`initrwlock`, line 94): both queues
empty, no write holder, no read holders. -/
def initState : RWLockSt :=
  { rdqueue := [], wrqueue := [], wrheld := none, rdheld := [] }

/-- Value of the instance variable `@rwheld`, read in `rdlock` (line 223)
and `unlock` (line 279).  It is never assigned anywhere in the class, so in
ruby it is always `nil`. -/
def rwheldVar (_s : RWLockSt) : Option Tid := none

/-- Value of the instance variable `@rwqueue`, read in `unlock` (line 284).
It is never assigned anywhere in the class, so it is always `nil` (not an
array). -/
def rwqueueVar (_s : RWLockSt) : Option (List Tid) := none

/-- Outcome of one iteration of a blocking acquire loop: either the caller
acquired the lock and the method returns, or the caller pushed itself onto
a wait queue and suspended (`Thread.stop`). -/
inductive LockRes where
  | acquired : RWLockSt → LockRes
  | blocked  : RWLockSt → LockRes
deriving DecidableEq, Repr

/-- The state carried by a `LockRes`. -/
def lockResSt : LockRes → RWLockSt
  | LockRes.acquired s => s
  | LockRes.blocked s => s

/-- Loop guard of `RWLock#rdlock` (line 223):
`@wrheld != nil && @rwheld != Thread.current`.  Because `@rwheld` is always
`nil` and `Thread.current` is never `nil`, the second conjunct is always
true, so the guard reduces to `@wrheld != nil`. -/
def rdlockGuard (t : Tid) (s : RWLockSt) : Bool :=
  decide (s.wrheld ≠ none) && decide (rwheldVar s ≠ some t)

/-- One atomic iteration of `RWLock#rdlock` (lines 221-233) by unit `t`.
If the guard holds the caller appends itself to `@rdqueue` and stops;
otherwise it sets `@wrheld = nil`, appends itself to `@rdheld`, wakes every
unit in `@rdqueue` (which does not change the lock's own fields) and
returns. -/
def rdlockStep (t : Tid) (s : RWLockSt) : LockRes :=
  if rdlockGuard t s then
    LockRes.blocked { s with rdqueue := s.rdqueue ++ [t] }
  else
    LockRes.acquired { s with wrheld := none, rdheld := s.rdheld ++ [t] }

/-- Loop guard of `RWLock#wrlock` (lines 237-238):
`!@rdheld.empty? || (@wrheld != Thread.current && @wrheld != nil)`. -/
def wrlockGuard (t : Tid) (s : RWLockSt) : Bool :=
  decide (s.rdheld ≠ []) ||
    (decide (s.wrheld ≠ some t) && decide (s.wrheld ≠ none))

/-- One atomic iteration of `RWLock#wrlock` (lines 235-245) by unit `t`:
block on the guard, else set `@wrheld = Thread.current` and return. -/
def wrlockStep (t : Tid) (s : RWLockSt) : LockRes :=
  if wrlockGuard t s then
    LockRes.blocked { s with wrqueue := s.wrqueue ++ [t] }
  else
    LockRes.acquired { s with wrheld := some t }

/-- `RWLock#tryrdlock` (lines 248-258): if `@wrheld == nil`, call `rdlock`
and return true, else return false.  No yield can occur between the check
and the `rdlock` body, so the whole call is one atomic step. -/
def tryrdlock (t : Tid) (s : RWLockSt) : Bool × RWLockSt :=
  if s.wrheld = none then (true, lockResSt (rdlockStep t s)) else (false, s)

/-- `RWLock#trywrlock` (lines 260-270): if `@wrheld == nil && @rdheld.empty?`,
call `wrlock` and return true, else return false. -/
def trywrlock (t : Tid) (s : RWLockSt) : Bool × RWLockSt :=
  if s.wrheld = none ∧ s.rdheld = [] then (true, lockResSt (wrlockStep t s))
  else (false, s)

/-- Exceptions the embedded ruby code can raise. -/
inductive RubyErr where
  | runtimeError : RubyErr
  | noMethodError : String → RubyErr
deriving DecidableEq, Repr

/-- `RWLock#unlock` (lines 272-292), one atomic step by unit `t`.  On an
exception the error also carries the lock state at the moment of the raise.

Tracing the ruby source faithfully:
  * if `@rdheld.include?(Thread.current)` (line 276), the method calls
    `@rdheld.remove!(Thread.current)` (line 277) — ruby's `Array` has no
    method `remove!`, so this raises `NoMethodError` before mutating
    anything, and the `raise if @wrheld` on line 278 is never reached;
  * otherwise the guard `elsif @rwheld != Thread.current` (line 279) is
    tested; `@rwheld` is always `nil` and `Thread.current` never is, so the
    guard always holds and the bare `raise` on line 280 fires — in
    particular it fires for the current write holder;
  * the tail (lines 283-289) is therefore unreachable; were it reached it
    would set `@wrheld = nil` and then evaluate `!@rwqueue.empty?` on the
    always-`nil` `@rwqueue`, raising `NoMethodError`. -/
def unlock (t : Tid) (s : RWLockSt) : Except (RubyErr × RWLockSt) RWLockSt :=
  if t ∈ s.rdheld then
    Except.error (RubyErr.noMethodError "remove!", s)
  else if rwheldVar s ≠ some t then
    Except.error (RubyErr.runtimeError, s)
  else
    Except.error (RubyErr.noMethodError "empty?", { s with wrheld := none })

/-- C adapter `rlock` (lines 104-107): calls `rdlock` on the lock's aux
object. -/
def rlock (t : Tid) (s : RWLockSt) : LockRes := rdlockStep t s

/-- C adapter `canrlock` (lines 109-112): calls `tryrdlock` and compares
the result with `Qtrue`. -/
def canrlock (t : Tid) (s : RWLockSt) : Bool × RWLockSt := tryrdlock t s

/-- C adapter `wlock` (lines 114-117): calls `wrlock`. -/
def wlock (t : Tid) (s : RWLockSt) : LockRes := wrlockStep t s

/-- C adapter `canwlock` (lines 119-122): calls `trywrlock`. -/
def canwlock (t : Tid) (s : RWLockSt) : Bool × RWLockSt := trywrlock t s

/-- C adapter `rwunlock` (lines 124-127): calls the dynamic `unlock` method
of the embedded class.  It is installed as both the `runlock` and the
`wunlock` member of the vtable. -/
def rwunlock (t : Tid) (s : RWLockSt) : Except (RubyErr × RWLockSt) RWLockSt :=
  unlock t s

/-- The RWLock slice of the `IxpThread` vtable (lines 183-210). -/
structure IxpThreadRW where
  rlock : Tid → RWLockSt → LockRes
  canrlock : Tid → RWLockSt → Bool × RWLockSt
  wlock : Tid → RWLockSt → LockRes
  canwlock : Tid → RWLockSt → Bool × RWLockSt
  runlock : Tid → RWLockSt → Except (RubyErr × RWLockSt) RWLockSt
  wunlock : Tid → RWLockSt → Except (RubyErr × RWLockSt) RWLockSt

/-- The static initializer of `ixp_rthread` (lines 190-198): the RWLock
members of the vtable, with `.runlock = rwunlock` and `.wunlock = rwunlock`. -/
def ixp_rthread : IxpThreadRW :=
  { rlock := rlock, canrlock := canrlock, wlock := wlock,
    canwlock := canwlock, runlock := rwunlock, wunlock := rwunlock }

end ThreadRuby

namespace ThreadRuby

/-- One atomic step on an `RWLock` by some scheduling unit: an iteration of
`rdlock` or `wrlock` (acquiring or queueing-and-stopping), a `tryrdlock` or
`trywrlock` call, or an `unlock` call (which may raise; the raise keeps the
mutations made before it). -/
inductive Step : RWLockSt → RWLockSt → Prop where
  | rd (t : Tid) (s : RWLockSt) : Step s (lockResSt (rdlockStep t s))
  | wr (t : Tid) (s : RWLockSt) : Step s (lockResSt (wrlockStep t s))
  | tryRd (t : Tid) (s : RWLockSt) : Step s (tryrdlock t s).2
  | tryWr (t : Tid) (s : RWLockSt) : Step s (trywrlock t s).2
  | unlockRaise (t : Tid) (s s' : RWLockSt) (e : RubyErr) :
      unlock t s = Except.error (e, s') → Step s s'
  | unlockRet (t : Tid) (s s' : RWLockSt) :
      unlock t s = Except.ok s' → Step s s'

/-- Lock states reachable from a fresh `RWLock.new` by any interleaving of
operations from any number of scheduling units. -/
inductive Reachable : RWLockSt → Prop where
  | init : Reachable initState
  | step (s s' : RWLockSt) : Reachable s → Step s s' → Reachable s'

/-- Mutual-exclusion invariant: whenever a writer holds the lock, no unit
holds it for reading. -/
def WriterExcludesReaders (s : RWLockSt) : Prop :=
  s.wrheld ≠ none → s.rdheld = []

theorem rdlockStep_preserves (t : Tid) (s : RWLockSt)
    (h : WriterExcludesReaders s) :
    WriterExcludesReaders (lockResSt (rdlockStep t s)) := by
  unfold WriterExcludesReaders at *
  unfold rdlockStep
  split
  · exact fun hw => h hw
  · intro hw; exact absurd rfl hw

theorem wrlockGuard_false (t : Tid) (s : RWLockSt)
    (hg : ¬wrlockGuard t s = true) :
    s.rdheld = [] ∧ (s.wrheld = some t ∨ s.wrheld = none) := by
  unfold wrlockGuard at hg
  simp only [Bool.or_eq_true, Bool.and_eq_true, decide_eq_true_eq] at hg
  push_neg at hg
  refine ⟨hg.1, ?_⟩
  by_cases hc : s.wrheld = some t
  · exact Or.inl hc
  · exact Or.inr (hg.2 hc)

theorem wrlockStep_preserves (t : Tid) (s : RWLockSt)
    (h : WriterExcludesReaders s) :
    WriterExcludesReaders (lockResSt (wrlockStep t s)) := by
  unfold WriterExcludesReaders at *
  unfold wrlockStep
  split
  · exact fun hw => h hw
  next hg => exact fun _ => (wrlockGuard_false t s hg).1

theorem tryrdlock_preserves (t : Tid) (s : RWLockSt)
    (h : WriterExcludesReaders s) :
    WriterExcludesReaders (tryrdlock t s).2 := by
  unfold tryrdlock
  split
  · exact rdlockStep_preserves t s h
  · exact h

theorem trywrlock_preserves (t : Tid) (s : RWLockSt)
    (h : WriterExcludesReaders s) :
    WriterExcludesReaders (trywrlock t s).2 := by
  unfold trywrlock
  split
  · exact wrlockStep_preserves t s h
  · exact h

theorem unlock_preserves (t : Tid) (s s' : RWLockSt) (e : RubyErr)
    (heq : unlock t s = Except.error (e, s'))
    (h : WriterExcludesReaders s) :
    WriterExcludesReaders s' := by
  unfold WriterExcludesReaders at *
  unfold unlock at heq
  split at heq
  · simp only [Except.error.injEq, Prod.mk.injEq] at heq
    rw [← heq.2]; exact h
  · split at heq
    · simp only [Except.error.injEq, Prod.mk.injEq] at heq
      rw [← heq.2]; exact h
    · simp only [Except.error.injEq, Prod.mk.injEq] at heq
      rw [← heq.2]
      intro hw; exact absurd rfl hw

theorem unlock_ne_ok (t : Tid) (s s' : RWLockSt) :
    unlock t s ≠ Except.ok s' := by
  unfold unlock
  split
  · exact fun h => Except.noConfusion h
  · split
    · exact fun h => Except.noConfusion h
    · exact fun h => Except.noConfusion h

theorem reachable_writerExcludesReaders (s : RWLockSt) (h : Reachable s) :
    WriterExcludesReaders s := by
  induction h with
  | init => intro hw; exact absurd rfl hw
  | step s1 s2 _ hstep ih =>
    cases hstep with
    | rd t _ => exact rdlockStep_preserves t s1 ih
    | wr t _ => exact wrlockStep_preserves t s1 ih
    | tryRd t _ => exact tryrdlock_preserves t s1 ih
    | tryWr t _ => exact trywrlock_preserves t s1 ih
    | unlockRaise t _ _ e heq => exact unlock_preserves t s1 s2 e heq ih
    | unlockRet t _ _ heq => exact absurd heq (unlock_ne_ok t s1 s2)

theorem reachable_one_reader : Reachable (⟨[], [], none, [0]⟩ : RWLockSt) := by
  have e1 : lockResSt (rdlockStep 0 initState) = ⟨[], [], none, [0]⟩ := by decide
  have h1 := Reachable.step _ _ Reachable.init (Step.rd 0 initState)
  rwa [e1] at h1

theorem reachable_two_readers :
    Reachable (⟨[], [], none, [0, 1]⟩ : RWLockSt) := by
  have e2 : lockResSt (rdlockStep 1 (⟨[], [], none, [0]⟩ : RWLockSt))
      = ⟨[], [], none, [0, 1]⟩ := by decide
  have h2 := Reachable.step _ _ reachable_one_reader
    (Step.rd 1 (⟨[], [], none, [0]⟩ : RWLockSt))
  rwa [e2] at h2

end ThreadRuby

namespace ThreadRuby

/-- C1: the claim says `unlock` releases whichever mode the caller holds and
raises exactly when the caller holds neither; the code instead raises for
every caller.  A unit holding the write lock hits the bare `raise` on line
280 (the guard compares against the never-assigned `@rwheld`, which is
`nil`), and a unit holding a read lock hits `NoMethodError` calling the
nonexistent `Array#remove!` on line 277 before anything is released. -/
theorem C1_unlock_raises_for_every_holder :
    unlock 0 (⟨[], [], some 0, []⟩ : RWLockSt)
      = Except.error (RubyErr.runtimeError, (⟨[], [], some 0, []⟩ : RWLockSt))
    ∧ unlock 1 (⟨[], [], none, [1]⟩ : RWLockSt)
      = Except.error (RubyErr.noMethodError "remove!",
          (⟨[], [], none, [1]⟩ : RWLockSt)) := by
  constructor
  · rfl
  · rfl

/-- C2: in every reachable lock state the lock is never simultaneously
read-held and write-held; an `rdlock` iteration acquires only when no
writer holds the lock; a `wrlock` iteration acquires only when no reader
holds it; and a state with two concurrent readers is reachable. -/
theorem C2_rwlock_mutual_exclusion :
    (∀ s : RWLockSt, Reachable s → ¬(s.rdheld ≠ [] ∧ s.wrheld ≠ none))
    ∧ (∀ (t : Tid) (s s' : RWLockSt),
        rdlockStep t s = LockRes.acquired s' → s.wrheld = none)
    ∧ (∀ (t : Tid) (s s' : RWLockSt),
        wrlockStep t s = LockRes.acquired s' → s.rdheld = [])
    ∧ (∃ s : RWLockSt, Reachable s ∧ 2 ≤ s.rdheld.length) := by
  refine ⟨?_, ?_, ?_, ?_⟩
  · rintro s hr ⟨hrd, hw⟩
    exact hrd (reachable_writerExcludesReaders s hr hw)
  · intro t s s' heq
    unfold rdlockStep at heq
    split at heq
    · exact LockRes.noConfusion heq
    next hg =>
      unfold rdlockGuard at hg
      simp only [Bool.and_eq_true, decide_eq_true_eq, rwheldVar] at hg
      push_neg at hg
      by_cases hc : s.wrheld = none
      · exact hc
      · exact absurd (hg hc) (by simp)
  · intro t s s' heq
    unfold wrlockStep at heq
    split at heq
    · exact LockRes.noConfusion heq
    next hg => exact (wrlockGuard_false t s hg).1
  · exact ⟨⟨[], [], none, [0, 1]⟩, reachable_two_readers, by simp⟩

/-- Witness for C2: the concrete reachable two-reader state is not
simultaneously read-held and write-held. -/
theorem C2_rwlock_mutual_exclusion_witness :
    ¬((⟨[], [], none, [0, 1]⟩ : RWLockSt).rdheld ≠ []
        ∧ (⟨[], [], none, [0, 1]⟩ : RWLockSt).wrheld ≠ none) :=
  C2_rwlock_mutual_exclusion.1 (⟨[], [], none, [0, 1]⟩ : RWLockSt)
    reachable_two_readers

/-- C3: the claim says `rdlock` does not block the unit that itself holds
the write lock; in the code the loop guard on line 223 tests the
never-assigned `@rwheld` (always `nil`) instead of `@wrheld`, so the write
holder re-entering `rdlock` pushes itself onto `@rdqueue` and stops
(deadlocking), instead of acquiring. -/
theorem C3_rdlock_blocks_write_holder :
    rdlockStep 0 (⟨[], [], some 0, []⟩ : RWLockSt)
      = LockRes.blocked (⟨[0], [], some 0, []⟩ : RWLockSt) := by
  rfl

/-- C4: write-lock acquisition is re-entrant: in any reachable state whose
write lock is held by the caller, one more `wrlock` iteration acquires
immediately (the guard on line 238 is false because `@wrheld ==
Thread.current` and, by the mutual-exclusion invariant, `@rdheld` is
empty), leaving the caller as write holder. -/
theorem C4_wrlock_reentrant (s : RWLockSt) (t : Tid)
    (hr : Reachable s) (hw : s.wrheld = some t) :
    wrlockStep t s = LockRes.acquired { s with wrheld := some t } := by
  have hrd : s.rdheld = [] :=
    reachable_writerExcludesReaders s hr (by simp [hw])
  have hg : wrlockGuard t s = false := by
    unfold wrlockGuard
    simp [hw, hrd]
  unfold wrlockStep
  rw [hg]
  simp

/-- Witness for C4: from a fresh lock, unit 0 takes the write lock; the
reachable state `⟨[], [], some 0, []⟩` then lets unit 0 re-acquire. -/
theorem C4_wrlock_reentrant_witness :
    wrlockStep 0 (⟨[], [], some 0, []⟩ : RWLockSt)
      = LockRes.acquired (⟨[], [], some 0, []⟩ : RWLockSt) := by
  have e1 : lockResSt (wrlockStep 0 initState)
      = (⟨[], [], some 0, []⟩ : RWLockSt) := by decide
  have h1 : Reachable (⟨[], [], some 0, []⟩ : RWLockSt) := by
    have h := Reachable.step _ _ Reachable.init (Step.wr 0 initState)
    rwa [e1] at h
  exact C4_wrlock_reentrant (⟨[], [], some 0, []⟩ : RWLockSt) 0 h1 rfl

/-- C5: the claim says `unlock` releases the caller's hold and then wakes
one queued write-waiter (when none read-hold) or else all queued
read-waiters; in the code a read holder's `unlock` raises `NoMethodError`
at the nonexistent `Array#remove!` (line 277) before releasing or waking
anything — here with read-waiters 1 and 2 queued, none of which is woken —
and the wake branch itself (lines 284-288) tests the never-assigned
`@rwqueue` and would move a single unit off `@rdqueue` into `@wrheld`
rather than waking all read-waiters. -/
theorem C5_unlock_raises_before_waking :
    unlock 0 (⟨[1, 2], [], none, [0]⟩ : RWLockSt)
      = Except.error (RubyErr.noMethodError "remove!",
          (⟨[1, 2], [], none, [0]⟩ : RWLockSt)) := by
  rfl

/-- C10: the vtable's `runlock` and `wunlock` members are the identical
function `rwunlock` (lines 196-197), which invokes the dynamic `unlock`
method, so releasing a read hold and releasing a write hold perform the
same computation on the lock state. -/
theorem C10_runlock_wunlock_identical :
    ixp_rthread.runlock = ixp_rthread.wunlock
    ∧ ixp_rthread.runlock = rwunlock
    ∧ ∀ (t : Tid) (s : RWLockSt), ixp_rthread.runlock t s = unlock t s :=
  ⟨rfl, rfl, fun _ _ => rfl⟩

end ThreadRuby

namespace ThreadRuby

/-- State of one rendezvous (`ConditionVariable` plus its associated
`Mutex`): the mutex owner, the units suspended inside `wait`, and the
units already signalled but not yet returned from `wait`.  The
`ConditionVariable` and `Mutex` classes come from the interpreter's
`thread.rb` (required by `ixp_rubyinit`, line 28) and are not part of
src, so their behaviour is modelled from the spec. -/
structure CVSt where
  owner   : Option Tid
  waiting : List Tid
  woken   : List Tid
deriving DecidableEq, Repr

/-- Modelled from the spec: `Mutex#lock` of the interpreter's `thread.rb`
(not in src) — acquire the mutex when it is unlocked, else refuse (the
real call would block). -/
def mLock (v : Tid) (s : CVSt) : Option CVSt :=
  if s.owner = none then some { s with owner := some v } else none

/-- Modelled from the spec: `Mutex#unlock` of `thread.rb` (not in src). -/
def mUnlock (v : Tid) (s : CVSt) : Option CVSt :=
  if s.owner = some v then some { s with owner := none } else none

/-- Modelled from the spec: the suspend half of `ConditionVariable#wait`
(`thread.rb`, not in src), reached through `rsleep` (thread_ruby.c line
143), which passes the rendezvous' associated mutex `r->mutex->aux`.  The
caller must hold that mutex; in one atomic step the mutex is released and
the caller joins the waiters. -/
def rsleepSuspend (u : Tid) (s : CVSt) : Option CVSt :=
  if s.owner = some u then
    some { s with owner := none, waiting := s.waiting ++ [u] }
  else none

/-- Modelled from the spec: `ConditionVariable#signal` (`thread.rb`, not in
src) — wake at most one waiting unit, a no-op when none waits. -/
def signal (s : CVSt) : CVSt :=
  match s.waiting with
  | [] => s
  | u :: rest => { owner := s.owner, waiting := rest, woken := s.woken ++ [u] }

/-- Modelled from the spec: `ConditionVariable#broadcast` (`thread.rb`, not
in src) — wake every waiting unit. -/
def broadcast (s : CVSt) : CVSt :=
  { owner := s.owner, waiting := [], woken := s.woken ++ s.waiting }

/-- Modelled from the spec: the resume half of `ConditionVariable#wait`: a
woken unit re-acquires the associated mutex before `wait` returns. -/
def rsleepResume (u : Tid) (s : CVSt) : Option CVSt :=
  if s.owner = none ∧ u ∈ s.woken then
    some { owner := some u, waiting := s.waiting, woken := s.woken.erase u }
  else none

/-- C adapter `rwake` (lines 146-150): calls `signal` on the rendezvous'
condition variable and returns 0. -/
def rwake (s : CVSt) : Int × CVSt := (0, signal s)

/-- C adapter `rwakeall` (lines 152-156): calls `broadcast` and returns 0. -/
def rwakeall (s : CVSt) : Int × CVSt := (0, broadcast s)

/-- C6: entering `wait` atomically releases the caller-held mutex and
suspends the caller; while the caller is suspended any other unit can
acquire the mutex (the caller still appearing among the waiters); and a
woken unit holds the mutex again when `wait` returns. -/
theorem C6_wait_releases_and_reacquires_mutex :
    (∀ (u : Tid) (s s' : CVSt), rsleepSuspend u s = some s' →
      s'.owner = none ∧ u ∈ s'.waiting)
    ∧ (∀ (u v : Tid) (s s' : CVSt), rsleepSuspend u s = some s' →
      mLock v s' = some { owner := some v, waiting := s'.waiting,
                          woken := s'.woken }
        ∧ u ∈ s'.waiting)
    ∧ (∀ (u : Tid) (s s' : CVSt), rsleepResume u s = some s' →
      s'.owner = some u) := by
  refine ⟨?_, ?_, ?_⟩
  · intro u s s' heq
    unfold rsleepSuspend at heq
    split at heq
    · cases heq
      exact ⟨rfl, by simp⟩
    · exact Option.noConfusion heq
  · intro u v s s' heq
    unfold rsleepSuspend at heq
    split at heq
    · cases heq
      refine ⟨?_, by simp⟩
      unfold mLock
      simp
    · exact Option.noConfusion heq
  · intro u s s' heq
    unfold rsleepResume at heq
    split at heq
    · cases heq
      rfl
    · exact Option.noConfusion heq

/-- Witness for C6: unit 0 holds the mutex and calls `wait`, releasing it
and suspending; unit 1 then acquires the mutex; a signalled unit 0
re-acquires it when resuming. -/
theorem C6_wait_releases_and_reacquires_mutex_witness :
    ((⟨none, [0], []⟩ : CVSt).owner = none ∧ 0 ∈ (⟨none, [0], []⟩ : CVSt).waiting)
    ∧ (mLock 1 (⟨none, [0], []⟩ : CVSt)
        = some ⟨some 1, [0], []⟩ ∧ 0 ∈ (⟨none, [0], []⟩ : CVSt).waiting)
    ∧ (⟨some 0, [], []⟩ : CVSt).owner = some 0 :=
  ⟨C6_wait_releases_and_reacquires_mutex.1 0 ⟨some 0, [], []⟩ ⟨none, [0], []⟩ rfl,
   C6_wait_releases_and_reacquires_mutex.2.1 0 1 ⟨some 0, [], []⟩
     ⟨none, [0], []⟩ rfl,
   C6_wait_releases_and_reacquires_mutex.2.2 0 ⟨none, [], [0]⟩
     ⟨some 0, [], []⟩ rfl⟩

/-- C9: `rwake` and `rwakeall` return status 0 from every rendezvous
state, with or without waiters. -/
theorem C9_wake_wakeall_return_zero :
    ∀ s : CVSt, (rwake s).1 = 0 ∧ (rwakeall s).1 = 0 :=
  fun _ => ⟨rfl, rfl⟩

end ThreadRuby

namespace ThreadRuby

/-- The errno value EINTR (interrupted system call) on the target platform. -/
def EINTR : Nat := 4

/-- Truncation of a `ssize_t` value into a C `int` (two's-complement
32-bit), as performed by the assignments `int n; n = read(...)` and
`n = write(...)` (lines 161-164, 173-176). -/
def wrap32 (z : Int) : Int := (z + 2 ^ 31) % 2 ^ 32 - 2 ^ 31

/-- Result of the underlying `read(2)`/`write(2)` syscall: the returned
value and the `errno` it left behind. -/
structure SysRes where
  ret : Int
  errno : Nat
deriving DecidableEq, Repr

/-- Observable behaviour of `_read`/`_write`: the value returned to the
host, whether `rb_thread_schedule()` was called after the syscall, and
whether the descriptor-wait primitive ran before it. -/
structure IORes where
  ret : Int
  yielded : Bool
  waited : Bool
deriving DecidableEq, Repr

/-- Backend `_read` (lines 159-169): `rb_thread_wait_fd(fd)`, then
`n = read(fd, buf, size)` storing the `ssize_t` result in an `int`; if
`n < 0 && errno == EINTR` it calls `rb_thread_schedule()` once; it returns
`n`. -/
def _read (r : SysRes) : IORes :=
  { ret := wrap32 r.ret,
    yielded := decide (wrap32 r.ret < 0 ∧ r.errno = EINTR),
    waited := true }

/-- Backend `_write` (lines 171-181): `rb_thread_fd_writable(fd)`, then
`n = write(fd, buf, size)`; the same EINTR yield; returns `n`. -/
def _write (r : SysRes) : IORes :=
  { ret := wrap32 r.ret,
    yielded := decide (wrap32 r.ret < 0 ∧ r.errno = EINTR),
    waited := true }

theorem wrap32_eq_self (z : Int) (h1 : -(2 ^ 31) ≤ z) (h2 : z < 2 ^ 31) :
    wrap32 z = z := by
  unfold wrap32
  have h0 : (0 : Int) ≤ z + 2 ^ 31 := by linarith
  have h3 : z + 2 ^ 31 < 2 ^ 32 := by
    have he : (2 : Int) ^ 32 = 2 ^ 31 + 2 ^ 31 := by norm_num
    linarith
  rw [Int.emod_eq_of_lt h0 h3]
  ring

/-- C7: whenever the syscall result fits in a C `int` (every conforming
`read(2)`/`write(2)` result does), `_read` returns exactly the syscall's
value — the byte count, 0 at EOF, or the negative error indicator with
errno untouched — calls `rb_thread_schedule` exactly when the syscall
failed with EINTR, and waits on the descriptor first; `_write` behaves
identically on its syscall result. -/
theorem C7_io_passthrough_and_eintr_yield (r : SysRes)
    (h1 : -(2 ^ 31) ≤ r.ret) (h2 : r.ret < 2 ^ 31) :
    (_read r).ret = r.ret
    ∧ ((_read r).yielded = true ↔ (r.ret < 0 ∧ r.errno = EINTR))
    ∧ (_read r).waited = true
    ∧ _write r = _read r := by
  have hw : wrap32 r.ret = r.ret := wrap32_eq_self r.ret h1 h2
  refine ⟨?_, ?_, rfl, rfl⟩
  · show wrap32 r.ret = r.ret
    exact hw
  · show decide (wrap32 r.ret < 0 ∧ r.errno = EINTR) = true ↔ _
    rw [hw]
    exact decide_eq_true_iff

/-- Witness for C7: a syscall failing with EINTR (return -1, errno 4) fits
in an `int`; the backend passes -1 through and yields. -/
theorem C7_io_passthrough_and_eintr_yield_witness :
    (_read ⟨-1, 4⟩).ret = (-1 : Int)
    ∧ ((_read ⟨-1, 4⟩).yielded = true ↔ ((-1 : Int) < 0 ∧ (4 : Nat) = EINTR))
    ∧ (_read ⟨-1, 4⟩).waited = true
    ∧ _write ⟨-1, 4⟩ = _read ⟨-1, 4⟩ :=
  C7_io_passthrough_and_eintr_yield ⟨-1, 4⟩ (by norm_num) (by norm_num)

end ThreadRuby

namespace ThreadRuby

/-- Modelled from the spec: the constant IXP_ERRMAX, the fixed capacity in
bytes of every error buffer.  It is defined in the host's `ixp.h`, which is
not part of src; only its fixedness matters to the claims. -/
def IXP_ERRMAX : Nat := 256

/-- A ruby string allocated by `rb_str_new(nil, IXP_ERRMAX)`: a distinct
heap region, identified by its allocation number, of a fixed size. -/
structure Buf where
  id : Nat
  size : Nat
deriving DecidableEq, Repr

/-- The interpreter's thread-local storage under the interned key
`_ixp_errbuf`: one association per scheduling unit, plus the next fresh
allocation number (a fresh ruby string is a region distinct from every
live one). -/
structure TLS where
  tbl : List (Tid × Buf)
  fresh : Nat
deriving DecidableEq, Repr

/-- `rb_thread_local_aref(rb_thread_current(), key)` for unit `t`. -/
def TLS.lookup (st : TLS) (t : Tid) : Option Buf :=
  match st.tbl.find? (fun p => p.1 == t) with
  | some p => some p.2
  | none => none

/-- Backend `errbuf` (lines 34-50) called by unit `t`: look the buffer up
in the calling unit's thread-local storage; if absent, allocate a fresh
string of `IXP_ERRMAX` bytes with `rb_str_new` and store it under the key;
return the buffer. -/
def errbuf (t : Tid) (st : TLS) : Buf × TLS :=
  match st.lookup t with
  | some b => (b, st)
  | none =>
      ({ id := st.fresh, size := IXP_ERRMAX },
       { tbl := st.tbl ++ [(t, { id := st.fresh, size := IXP_ERRMAX })],
         fresh := st.fresh + 1 })

/-- Well-formedness of the thread-local store: every recorded buffer was
allocated before `fresh` and has the fixed size, and buffers recorded for
different units are distinct regions. -/
def TLS.WF (st : TLS) : Prop :=
  (∀ p ∈ st.tbl, p.2.id < st.fresh ∧ p.2.size = IXP_ERRMAX)
  ∧ (∀ p ∈ st.tbl, ∀ q ∈ st.tbl, p.1 ≠ q.1 → p.2.id ≠ q.2.id)

theorem TLS.lookup_none_find {st : TLS} {t : Tid}
    (h : st.lookup t = none) :
    st.tbl.find? (fun p => p.1 == t) = none := by
  unfold TLS.lookup at h
  cases hf : st.tbl.find? (fun p => p.1 == t) with
  | none => rfl
  | some p => rw [hf] at h; exact Option.noConfusion h

theorem TLS.lookup_some_mem {st : TLS} {t : Tid} {b : Buf}
    (h : st.lookup t = some b) : (t, b) ∈ st.tbl := by
  unfold TLS.lookup at h
  cases hf : st.tbl.find? (fun p => p.1 == t) with
  | none => rw [hf] at h; exact Option.noConfusion h
  | some p =>
    rw [hf] at h
    have hmem := List.mem_of_find?_eq_some hf
    have hpt : p.1 = t := by
      have hs := List.find?_some hf
      simpa using hs
    have hb : p.2 = b := by simpa using h
    have hp : p = (t, b) := by
      cases p
      simp_all
    rw [← hp]
    exact hmem

theorem errbuf_of_lookup_some {t : Tid} {st : TLS} {b : Buf}
    (h : st.lookup t = some b) : errbuf t st = (b, st) := by
  unfold errbuf
  rw [h]

theorem errbuf_of_lookup_none {t : Tid} {st : TLS}
    (h : st.lookup t = none) :
    errbuf t st
      = ({ id := st.fresh, size := IXP_ERRMAX },
         { tbl := st.tbl ++ [(t, { id := st.fresh, size := IXP_ERRMAX })],
           fresh := st.fresh + 1 }) := by
  unfold errbuf
  rw [h]

theorem lookup_append_self {st : TLS} {t : Tid} {b : Buf}
    (h : st.lookup t = none) :
    TLS.lookup { tbl := st.tbl ++ [(t, b)], fresh := st.fresh + 1 } t
      = some b := by
  have hf := TLS.lookup_none_find h
  simp only [TLS.lookup, List.find?_append, hf, Option.none_or]
  simp [List.find?]

theorem lookup_append_other {st : TLS} {t t' : Tid} {b : Buf}
    (hne : t' ≠ t) :
    TLS.lookup { tbl := st.tbl ++ [(t, b)], fresh := st.fresh + 1 } t'
      = st.lookup t' := by
  have hb : (t == t') = false := by
    simp [Ne.symm hne]
  simp only [TLS.lookup, List.find?_append]
  have hone : [(t, b)].find? (fun p => p.1 == t') = none := by
    simp [List.find?, hb]
  rw [hone, Option.or_none]

theorem errbuf_lookup_self (t : Tid) (st : TLS) :
    (errbuf t st).2.lookup t = some (errbuf t st).1 := by
  cases h : st.lookup t with
  | some b => rw [errbuf_of_lookup_some h]; exact h
  | none => rw [errbuf_of_lookup_none h]; exact lookup_append_self h

theorem errbuf_stable (t : Tid) (st : TLS) :
    errbuf t (errbuf t st).2 = ((errbuf t st).1, (errbuf t st).2) :=
  errbuf_of_lookup_some (errbuf_lookup_self t st)

theorem errbuf_distinct (st : TLS) (t1 t2 : Tid)
    (hwf : TLS.WF st) (hne : t1 ≠ t2) :
    (errbuf t2 (errbuf t1 st).2).1.id ≠ (errbuf t1 st).1.id := by
  cases h1 : st.lookup t1 with
  | some b1 =>
    rw [errbuf_of_lookup_some h1]
    cases h2 : st.lookup t2 with
    | some b2 =>
      rw [errbuf_of_lookup_some h2]
      exact hwf.2 (t2, b2) (TLS.lookup_some_mem h2)
        (t1, b1) (TLS.lookup_some_mem h1) (Ne.symm hne)
    | none =>
      rw [errbuf_of_lookup_none h2]
      exact Nat.ne_of_gt (hwf.1 (t1, b1) (TLS.lookup_some_mem h1)).1
  | none =>
    rw [errbuf_of_lookup_none h1]
    have hl2 : TLS.lookup
        { tbl := st.tbl ++ [(t1, { id := st.fresh, size := IXP_ERRMAX })],
          fresh := st.fresh + 1 } t2
        = st.lookup t2 := lookup_append_other (Ne.symm hne)
    cases h2 : st.lookup t2 with
    | some b2 =>
      rw [errbuf_of_lookup_some (hl2.trans h2)]
      exact Nat.ne_of_lt (hwf.1 (t2, b2) (TLS.lookup_some_mem h2)).1
    | none =>
      rw [errbuf_of_lookup_none (hl2.trans h2)]
      simp

/-- C8: from any well-formed thread-local store, `errbuf` called by unit
`t1` returns a buffer of IXP_ERRMAX bytes; calling again from `t1` returns
the same buffer and leaves the store unchanged; calling from a different
unit `t2` returns a distinct region; and when `t1` had no buffer yet, the
call creates one under `t1`'s key with a fresh allocation. -/
theorem C8_errbuf_per_unit (st : TLS) (t1 t2 : Tid)
    (hwf : TLS.WF st) (hne : t1 ≠ t2) :
    (errbuf t1 st).1.size = IXP_ERRMAX
    ∧ errbuf t1 (errbuf t1 st).2 = ((errbuf t1 st).1, (errbuf t1 st).2)
    ∧ (errbuf t2 (errbuf t1 st).2).1.id ≠ (errbuf t1 st).1.id
    ∧ (st.lookup t1 = none →
        (errbuf t1 st).2.lookup t1 = some (errbuf t1 st).1
        ∧ (errbuf t1 st).2.fresh = st.fresh + 1) := by
  refine ⟨?_, errbuf_stable t1 st, errbuf_distinct st t1 t2 hwf hne, ?_⟩
  · cases h1 : st.lookup t1 with
    | some b1 =>
      rw [errbuf_of_lookup_some h1]
      exact (hwf.1 (t1, b1) (TLS.lookup_some_mem h1)).2
    | none =>
      rw [errbuf_of_lookup_none h1]
  · intro h1
    refine ⟨errbuf_lookup_self t1 st, ?_⟩
    rw [errbuf_of_lookup_none h1]

/-- Witness for C8: in the empty store, units 0 and 1 get distinct
IXP_ERRMAX-byte buffers, and unit 0 gets the same one twice. -/
theorem C8_errbuf_per_unit_witness :
    (errbuf 0 ⟨[], 0⟩).1.size = IXP_ERRMAX
    ∧ errbuf 0 (errbuf 0 ⟨[], 0⟩).2 = ((errbuf 0 ⟨[], 0⟩).1, (errbuf 0 ⟨[], 0⟩).2)
    ∧ (errbuf 1 (errbuf 0 ⟨[], 0⟩).2).1.id ≠ (errbuf 0 ⟨[], 0⟩).1.id
    ∧ (TLS.lookup ⟨[], 0⟩ 0 = none →
        (errbuf 0 ⟨[], 0⟩).2.lookup 0 = some (errbuf 0 ⟨[], 0⟩).1
        ∧ (errbuf 0 ⟨[], 0⟩).2.fresh = 0 + 1) :=
  C8_errbuf_per_unit ⟨[], 0⟩ 0 1
    ⟨fun p hp => absurd hp (List.not_mem_nil p),
     fun p hp => absurd hp (List.not_mem_nil p)⟩
    (by decide)

end ThreadRuby
